import Mathlib

/-!
Verification of the request-dispatch and protocol-translation engine of the
ahrefs-mcp-server repository (src/server.ts), as a shallow embedding in Lean.

JavaScript values appearing in call arguments, request bodies and upstream
response bodies are modelled by `Value` (JSON-like values; `undefined` is
modelled by `Option.none` wherever the source distinguishes it from `null`).
Arrays are not modelled: no claim depends on them and the upstream API
exchanges JSON objects.  JavaScript string coercion, truthiness, property
lookup, `toLowerCase` (ASCII), `encodeURIComponent` (with UTF-8 percent
encoding), `String.prototype.replace` with a string pattern (first occurrence
only), `String.prototype.includes` and `split` are modelled explicitly below.
-/

/-- JSON-like runtime value (model of the untyped JS values the server handles). -/
inductive Value where
  | vNull
  | vBool (b : Bool)
  | vNum (n : Int)
  | vStr (s : String)
  | vObj (fields : List (String × Value))

/-- First-match association-list lookup (model of JS property read `o[k]`;
`none` plays the role of `undefined`). -/
def lookupKV {α : Type} : List (String × α) → String → Option α
  | [], _ => none
  | (k, v) :: rest, key => if k = key then some v else lookupKV rest key

/-- Association-list update (model of JS property write `o[k] = v`: replaces
the first binding of the key, else appends). -/
def setKV {α : Type} : List (String × α) → String → α → List (String × α)
  | [], key, v => [(key, v)]
  | (k, w) :: rest, key, v =>
      if k = key then (key, v) :: rest else (k, w) :: setKV rest key v

/-- JS truthiness of a `Value`. -/
def jsTruthy : Value → Bool
  | .vNull => false
  | .vBool b => b
  | .vNum n => n != 0
  | .vStr s => s ≠ ""
  | .vObj _ => true

/-- JS `String(v)` coercion on a defined value. -/
def jsToString : Value → String
  | .vNull => "null"
  | .vBool b => cond b "true" "false"
  | .vNum n => toString n
  | .vStr s => s
  | .vObj _ => "[object Object]"

/-- JS `String(v)` coercion where `none` models `undefined`. -/
def jsToStringU : Option Value → String
  | some v => jsToString v
  | none => "undefined"

/-- A value that is neither `undefined` nor `null` (the test
`v !== undefined && v !== null` from the source). -/
def isPresent : Option Value → Bool
  | some .vNull => false
  | some _ => true
  | none => false

/-- Property read on a `Value` (optional chaining `v?.k`: non-objects give
`undefined`). -/
def getField (v : Value) (k : String) : Option Value :=
  match v with
  | .vObj fs => lookupKV fs k
  | _ => none

/-- JS `a || b` on possibly-undefined values: the left operand if it is
defined and truthy, otherwise the right operand. -/
def jsOrV (a b : Option Value) : Option Value :=
  match a with
  | some v => if jsTruthy v then some v else b
  | none => b

/-- JS `toLowerCase` restricted to ASCII (the only case the claims exercise). -/
def jsToLowerCase (s : String) : String :=
  ⟨s.data.map Char.toLower⟩

/-- Splits a character list at a separator character (model of JS
`String.prototype.split` with a one-character separator). -/
def splitOnCharAux (sep : Char) : List Char → List Char → List (List Char)
  | [], acc => [acc.reverse]
  | c :: rest, acc =>
      if c = sep then acc.reverse :: splitOnCharAux sep rest []
      else splitOnCharAux sep rest (c :: acc)

/-- Model of `s.split(sep).pop()` for a one-character separator: the last
segment of the split. -/
def lastSegment (s : String) : String :=
  ⟨(splitOnCharAux '_' s.data []).getLastD []⟩

/-- Finds the first occurrence of `pat` inside a character list, returning the
characters before it and the characters after it. -/
def splitAtSubstring (pat : List Char) : List Char → Option (List Char × List Char)
  | [] => if pat.isEmpty then some ([], []) else none
  | c :: rest =>
      if pat.isPrefixOf (c :: rest) then some ([], (c :: rest).drop pat.length)
      else
        match splitAtSubstring pat rest with
        | some (pre, post) => some (c :: pre, post)
        | none => none

/-- Model of JS `String.prototype.replace` with a string pattern: replaces the
first occurrence only. -/
def replaceFirst (s pat repl : String) : String :=
  match splitAtSubstring pat.data s.data with
  | some (pre, post) => ⟨pre ++ repl.data ++ post⟩
  | none => s

/-- Model of JS `String.prototype.includes`. -/
def strIncludes (s pat : String) : Bool :=
  (splitAtSubstring pat.data s.data).isSome

/-- Uppercase hexadecimal digit, as emitted by `encodeURIComponent`. -/
def hexDigit (n : Nat) : Char :=
  if n < 10 then Char.ofNat (48 + n) else Char.ofNat (55 + n)

/-- Value of a hexadecimal digit character (both cases accepted, as by
`decodeURIComponent`). -/
def hexVal (c : Char) : Option Nat :=
  if 48 ≤ c.toNat ∧ c.toNat ≤ 57 then some (c.toNat - 48)
  else if 65 ≤ c.toNat ∧ c.toNat ≤ 70 then some (c.toNat - 55)
  else if 97 ≤ c.toNat ∧ c.toNat ≤ 102 then some (c.toNat - 87)
  else none

/-- Characters `encodeURIComponent` leaves unescaped: ASCII alphanumerics and
`- _ . ! ~ * ' ( )`. -/
def isUnreservedECU (c : Char) : Bool :=
  c.isAlphanum || c = '-' || c = '_' || c = '.' || c = '!' || c = '~' ||
    c = '*' || c = Char.ofNat 39 || c = '(' || c = ')'

/-- UTF-8 bytes of a character. -/
def utf8Bytes (c : Char) : List Nat :=
  let n := c.toNat
  if n < 128 then [n]
  else if n < 2048 then [192 + n / 64, 128 + n % 64]
  else if n < 65536 then [224 + n / 4096, 128 + (n / 64) % 64, 128 + n % 64]
  else [240 + n / 262144, 128 + (n / 4096) % 64, 128 + (n / 64) % 64, 128 + n % 64]

/-- Percent escape of one byte. -/
def pctEncodeByte (b : Nat) : List Char :=
  ['%', hexDigit (b / 16), hexDigit (b % 16)]

/-- Model of JS `encodeURIComponent` at the character-list level. -/
def encodeURIComponentChars : List Char → List Char
  | [] => []
  | c :: rest =>
      (if isUnreservedECU c then [c]
       else (utf8Bytes c).foldr (fun b acc => pctEncodeByte b ++ acc) []) ++
        encodeURIComponentChars rest

/-- Model of JS `encodeURIComponent`. -/
def encodeURIComponent (s : String) : String :=
  ⟨encodeURIComponentChars s.data⟩

mutual

/-- Model of JS `decodeURIComponent` on the ASCII fragment: each `%XX` escape
denotes the scalar value `XX` directly (for inputs produced from ASCII text
this agrees with full UTF-8 decoding); malformed escapes give `none` (the
builtin throws `URIError`). -/

def decodeURIComponentChars : List Char → Option (List Char)
  | [] => some []
  | c :: rest =>
      if c = '%' then decodePctTail rest
      else (decodeURIComponentChars rest).map (fun tl => c :: tl)

/-- Decoding of what follows a percent sign: two hexadecimal digits then the
rest of the input. -/
def decodePctTail : List Char → Option (List Char)
  | h1 :: h2 :: rest =>
      (hexVal h1).bind (fun a => (hexVal h2).bind (fun b =>
        (decodeURIComponentChars rest).map (fun tl => Char.ofNat (16 * a + b) :: tl)))
  | _ => none

end

/-- Reserved characters of RFC 3986 (gen-delims and sub-delims). -/
def reservedRFC3986 (c : Char) : Bool :=
  [':', '/', '?', '#', '[', ']', '@', '!', '$', '&', Char.ofNat 39,
    '(', ')', '*', '+', ',', ';', '='].contains c

/-- Repeated spaces, for JSON indentation. -/
def spaces (n : Nat) : String :=
  ⟨List.replicate n ' '⟩

/-- JSON string escaping as performed by `JSON.stringify` (the escapes the
claims can exercise: quote, backslash, and the common control characters). -/
def jsonEscapeChar (c : Char) : List Char :=
  if c = '"' then ['\\', '"']
  else if c = '\\' then ['\\', '\\']
  else if c = Char.ofNat 10 then ['\\', 'n']
  else if c = Char.ofNat 13 then ['\\', 'r']
  else if c = Char.ofNat 9 then ['\\', 't']
  else [c]

/-- JSON quoted string literal. -/
def jsonQuote (s : String) : String :=
  ⟨'"' :: (s.data.foldr (fun c acc => jsonEscapeChar c ++ acc) ['"'])⟩

mutual

/-- Model of `JSON.stringify(v, null, 2)` at indentation level `ind`. -/
def jsonStringifyAux (ind : Nat) (v : Value) : String :=
  match v with
  | .vNull => "null"
  | .vBool b => cond b "true" "false"
  | .vNum n => toString n
  | .vStr s => jsonQuote s
  | .vObj [] => "\x7b\x7d"
  | .vObj fs => "\x7b\n" ++ jsonFieldLines (ind + 2) fs ++ "\n" ++ spaces ind ++ "\x7d"

/-- Field lines of a pretty-printed JSON object, comma separated. -/
def jsonFieldLines (ind : Nat) (fs : List (String × Value)) : String :=
  match fs with
  | [] => ""
  | [(k, v)] => spaces ind ++ jsonQuote k ++ ": " ++ jsonStringifyAux ind v
  | (k, v) :: rest =>
      spaces ind ++ jsonQuote k ++ ": " ++ jsonStringifyAux ind v ++ ",\n" ++
        jsonFieldLines ind rest

end

/-- Model of `JSON.stringify(v, null, 2)` (the pretty-printing used by the
server for schemas and JSON response bodies). -/
def jsonStringifyPretty (v : Value) : String :=
  jsonStringifyAux 0 v

/-- Protocol error codes used by the server (from the MCP SDK). -/
inductive ErrorCode where
  | invalidParams
  | methodNotFound
  | requestTimeout
  | internalError
deriving DecidableEq

/-- Protocol error (model of the SDK class `McpError`; `message` holds the
message passed at construction). -/
structure McpError where
  code : ErrorCode
  message : String
deriving DecidableEq

/-- The `response` carried by an axios error that received an HTTP reply. -/
structure ErrResponse where
  status : Nat
  data : Value

/-- A thrown JS value as classified by the catch block and by
`mapApiErrorToMcpError`: an axios error (with or without an HTTP response), a
thrown `McpError` (an `Error` whose message is the constructed message), some
other `Error`, or a non-`Error` value. -/
inductive ThrownError where
  | axiosError (response : Option ErrResponse) (message : String)
  | mcpThrow (e : McpError)
  | otherError (message : String)
  | nonError

/-- The `apiMessage` expression of `mapApiErrorToMcpError`:
`data?.error || data?.message || data?.detail || error.message`, rendered to a
string the way a template literal renders the chosen value. -/
def apiMessageOf (d : Value) (fallback : String) : String :=
  match jsOrV (getField d "error") (jsOrV (getField d "message") (jsOrV (getField d "detail") none)) with
  | some v => jsToString v
  | none => fallback

/-- Model of `mapApiErrorToMcpError` (src/server.ts lines 27-52).  The switch
on the status is modelled by the corresponding equality chain; a switch on an
absent status (a network-level axios error) falls to the default case with the
text `undefined` interpolated. -/
def mapApiErrorToMcpError : ThrownError → McpError
  | .axiosError resp msg =>
      let apiMessage := apiMessageOf (match resp with | some r => r.data | none => .vNull) msg
      match resp with
      | some r =>
          if r.status = 400 then ⟨.invalidParams, "API Bad Request: " ++ apiMessage⟩
          else if r.status = 404 then ⟨.methodNotFound, "API Not Found: " ++ apiMessage⟩
          else if r.status = 408 then ⟨.requestTimeout, "API Request Timeout: " ++ apiMessage⟩
          else if r.status = 500 ∨ r.status = 502 ∨ r.status = 503 ∨ r.status = 504 then
            ⟨.internalError, "API Server Error (" ++ toString r.status ++ "): " ++ apiMessage⟩
          else
            ⟨.internalError, "API Request Failed (" ++ toString r.status ++ "): " ++ apiMessage⟩
      | none => ⟨.internalError, "API Request Failed (undefined): " ++ apiMessage⟩
  | .mcpThrow e => ⟨.internalError, "Request failed: " ++ e.message⟩
  | .otherError msg => ⟨.internalError, "Request failed: " ++ msg⟩
  | .nonError => ⟨.internalError, "An unknown internal error occurred"⟩

/-- Parameter metadata attached to a generated tool (`_original_parameters`
entries): name, location (`in`: path, query, header or body) and whether the
parameter is required. -/
structure ParameterSpec where
  name : String
  loc : String
  required : Bool

/-- Request-body metadata attached to a generated tool
(`_original_request_body`). -/
structure RequestBodyInfo where
  required : Bool
  content_type : Option String

/-- A catalog entry: the public name and input schema plus the hidden original
HTTP operation details (`_original_method`, `_original_path`,
`_original_parameters`, `_original_request_body`). -/
structure ToolDescriptor where
  name : String
  inputSchema : Value
  method : Option String
  path : Option String
  parameters : List ParameterSpec
  requestBodyInfo : Option RequestBodyInfo

/-- The mutable request-building state of the CallTool handler just before the
parameter loop (src/server.ts lines 137-145). -/
structure MapState where
  targetPath : String
  queryParams : List (String × Value)
  headers : List (String × String)
  requestBody : Option Value

/-- Initial `MapState`: path template, empty query, the three fixed headers,
and `requestBody = args.requestBody`. -/
def initState (path apiKey : String) (args : List (String × Value)) : MapState :=
  { targetPath := path
    queryParams := []
    headers := [("Accept", "application/json"), ("User-Agent", "ahrefs-mcp-server"),
                ("Authorization", "Bearer " ++ apiKey)]
    requestBody := lookupKV args "requestBody" }

/-- Parameter names whose values are lower-cased before use
(src/server.ts line 154). -/
def lowercasedNames : List String :=
  ["us_state", "country", "country_code"]

/-- One iteration of the parameter loop (src/server.ts lines 148-175).  A
missing required parameter throws `McpError(InvalidParams, ...)`; a body
parameter assigned onto a truthy non-object `requestBody` is the strict-mode
`TypeError` of the property write. -/
def processParam (args : List (String × Value)) (st : MapState) (p : ParameterSpec) :
    Except ThrownError MapState :=
  let v0 := lookupKV args p.name
  let v1 := if isPresent v0 && lowercasedNames.contains p.name then
      some (Value.vStr (jsToLowerCase (jsToStringU v0)))
    else v0
  if isPresent v1 then
    let v := v1.getD .vNull
    if p.loc = "path" then
      .ok { st with targetPath :=
              (replaceFirst st.targetPath ("\x7b" ++ p.name ++ "\x7d")
                (encodeURIComponent (jsToString v))) }
    else if p.loc = "query" then
      .ok { st with queryParams := setKV st.queryParams p.name v }
    else if p.loc = "header" then
      .ok { st with headers := setKV st.headers p.name (jsToString v) }
    else if p.loc = "body" then
      let rb := if jsTruthy (st.requestBody.getD .vNull) then st.requestBody.getD .vNull
        else Value.vObj []
      match rb with
      | .vObj fs => .ok { st with requestBody := some (.vObj (setKV fs p.name v)) }
      | _ => .error (.otherError ("Cannot create property " ++ p.name))
    else
      .ok st
  else if p.required then
    .error (.mcpThrow ⟨.invalidParams, "Missing required parameter: " ++ p.name⟩)
  else
    .ok st

/-- The whole parameter loop, in catalog order, short-circuiting on the first
thrown error. -/
def processParams (args : List (String × Value)) :
    List ParameterSpec → MapState → Except ThrownError MapState
  | [], st => .ok st
  | p :: rest, st =>
      match processParam args st p with
      | .ok st2 => processParams args rest st2
      | .error e => .error e

/-- JS `a || b` for an optional string against a string default (used for
`content_type || 'application/json'`). -/
def jsOrStr (a : Option String) (b : String) : String :=
  match a with
  | some s => if s = "" then b else s
  | none => b

/-- Body finalization (src/server.ts lines 177-186): returns the request data
and the final headers, or the missing-body throw.  In the source the final
`else if (requestData !== undefined)` branch is dead because `requestData` is
only ever assigned in the first branch, so when the descriptor has no
request-body metadata nothing is attached. -/
def finalizeBody (rbInfo : Option RequestBodyInfo) (st : MapState) :
    Except ThrownError (Option Value × List (String × String)) :=
  if rbInfo.isSome && isPresent st.requestBody then
    match rbInfo with
    | some info =>
        .ok (st.requestBody, setKV st.headers "Content-Type" (jsOrStr info.content_type "application/json"))
    | none => .ok (none, st.headers)
  else if (rbInfo.map (fun i => i.required)).getD false then
    .error (.mcpThrow ⟨.invalidParams, "Missing required requestBody"⟩)
  else
    .ok (none, st.headers)

/-- The outbound HTTP request handed to axios. -/
structure OutboundRequest where
  method : String
  url : String
  queryParams : List (String × Value)
  headers : List (String × String)
  data : Option Value

/-- The Argument Mapper: the try-block of the CallTool handler up to the axios
call (src/server.ts lines 137-189): parameter loop then body finalization. -/
def mapArguments (params : List ParameterSpec) (rbInfo : Option RequestBodyInfo)
    (method path apiKey : String) (args : List (String × Value)) :
    Except ThrownError OutboundRequest :=
  match processParams args params (initState path apiKey args) with
  | .error e => .error e
  | .ok st =>
      match finalizeBody rbInfo st with
      | .error e => .error e
      | .ok (data, headers) =>
          .ok { method := method, url := st.targetPath, queryParams := st.queryParams,
                headers := headers, data := data }

/-- A successful (2xx) upstream response as axios resolves it: status, the
`content-type` response header, and the parsed body. -/
structure SuccessResponse where
  status : Nat
  contentType : Option String
  data : Value

/-- One content item of a CallTool result. -/
structure ContentItem where
  type : String
  text : String
deriving DecidableEq

/-- The CallTool result envelope.  The source omits `isError` on success and
sets it to `true` in the catch block; an absent `isError` is modelled as
`false` (how the protocol reads it).  `error` is the structured error the
catch block attaches. -/
structure CallToolResult where
  content : List ContentItem
  isError : Bool
  error : Option McpError
deriving DecidableEq

/-- Error envelope built by the catch block (src/server.ts lines 218-226). -/
def errorEnvelope (e : McpError) : CallToolResult :=
  { content := [⟨"text", e.message⟩], isError := true, error := some e }

/-- Response formatting of the success path (src/server.ts lines 202-216).
The `JSON.stringify` fallback for unserializable values cannot trigger on
`Value` (no cyclic values), so the try around it is elided.  A `typeof`
test against `object` also holds for `null`, which the model preserves. -/
def jsTypeofIsObject : Value → Bool
  | .vNull => true
  | .vObj _ => true
  | _ => false

/-- Builds the success envelope from an upstream response. -/
def formatSuccess (resp : SuccessResponse) : CallToolResult :=
  let ctOk := match resp.contentType with
    | some ct => (ct ≠ "") && strIncludes ct "application/json"
    | none => false
  let responseText := if ctOk && jsTypeofIsObject resp.data then jsonStringifyPretty resp.data
    else jsToString resp.data
  { content := [⟨"text", responseText⟩], isError := false, error := none }

/-- Whether an optional string is truthy as a JS value (`undefined` and the
empty string are falsy), for the `!originalMethod || !originalPath` check. -/
def strOptTruthy : Option String → Bool
  | none => false
  | some s => s ≠ ""

/-- The outcome of one CallTool dispatch: the protocol-level result (`Except`
error = a thrown `McpError` rejecting the call, `ok` = a returned envelope)
and whether the upstream axios call was reached. -/
structure HandlerOutcome where
  result : Except McpError CallToolResult
  upstreamCalled : Bool

/-- The CallTool request handler (src/server.ts lines 104-227).  The upstream
network outcome is an oracle parameter `upstream`: it is consulted only when
the argument mapping completes and the axios call is issued; axios resolves
with a `SuccessResponse` exactly for 2xx statuses (its `validateStatus`) and
throws a `ThrownError` otherwise.  Thrown errors inside the try-block
(validation throws, property-write errors, upstream failures) are caught and
turned into an `isError = true` envelope; throws before the try-block
(doc branch, unknown tool, missing metadata) reject the call. -/
def handleCallTool (tools : List ToolDescriptor) (apiKey : String) (toolName : String)
    (args : List (String × Value)) (upstream : Except ThrownError SuccessResponse) :
    HandlerOutcome :=
  if toolName = "doc" then
    let requestedToolName := lastSegment (jsToStringU (lookupKV args "tool"))
    match tools.find? (fun t => t.name == requestedToolName) with
    | none =>
        ⟨.error ⟨.methodNotFound, "Tool \x27" ++ requestedToolName ++ "\x27 not found."⟩, false⟩
    | some t =>
        ⟨.ok { content := [⟨"text", jsonStringifyPretty t.inputSchema⟩],
               isError := false, error := none }, false⟩
  else
    match tools.find? (fun t => t.name == toolName) with
    | none => ⟨.error ⟨.methodNotFound, "Tool \x27" ++ toolName ++ "\x27 not found."⟩, false⟩
    | some tool =>
        if strOptTruthy tool.method && strOptTruthy tool.path then
          match mapArguments tool.parameters tool.requestBodyInfo
              (tool.method.getD "") (tool.path.getD "") apiKey args with
          | .error e => ⟨.ok (errorEnvelope (mapApiErrorToMcpError e)), false⟩
          | .ok _ =>
              match upstream with
              | .ok resp => ⟨.ok (formatSuccess resp), true⟩
              | .error e => ⟨.ok (errorEnvelope (mapApiErrorToMcpError e)), true⟩
        else
          ⟨.error ⟨.internalError,
            "Internal configuration error for tool \x27" ++ toolName ++ "\x27."⟩, false⟩

theorem lookupKV_setKV_ne {α : Type} (l : List (String × α)) (k k2 : String) (v : α)
    (h : k ≠ k2) : lookupKV (setKV l k v) k2 = lookupKV l k2 := by
  induction l with
  | nil => simp [setKV, lookupKV, h]
  | cons hd tl ih =>
      obtain ⟨k0, v0⟩ := hd
      by_cases hk : k0 = k
      · subst hk
        simp [setKV, lookupKV, h]
      · simp [setKV, hk, lookupKV, ih]

/-- Values that are absent, `null`, or an object: the shapes of `requestBody`
for which the body-parameter property write cannot throw. -/
def bodyLike : Option Value → Bool
  | none => true
  | some .vNull => true
  | some (.vObj _) => true
  | some _ => false

theorem processParam_absent_required (args : List (String × Value)) (st : MapState)
    (p : ParameterSpec) (habs : isPresent (lookupKV args p.name) = false)
    (hreq : p.required = true) :
    processParam args st p =
      .error (.mcpThrow ⟨.invalidParams, "Missing required parameter: " ++ p.name⟩) := by
  simp [processParam, habs, hreq]

theorem processParam_absent_optional (args : List (String × Value)) (st : MapState)
    (p : ParameterSpec) (habs : isPresent (lookupKV args p.name) = false)
    (hreq : p.required = false) :
    processParam args st p = .ok st := by
  simp [processParam, habs, hreq]

theorem isPresent_transform (v0 : Option Value) (b : Bool) (s : String) :
    isPresent (if isPresent v0 && b then some (Value.vStr s) else v0) = isPresent v0 := by
  cases v0 with
  | none => simp [isPresent]
  | some v => cases v <;> cases b <;> simp [isPresent]

theorem processParam_ok_exists (args : List (String × Value)) (st : MapState)
    (p : ParameterSpec) (hb : bodyLike st.requestBody = true)
    (hreq : p.required = true → isPresent (lookupKV args p.name) = true) :
    ∃ st2, processParam args st p = .ok st2 ∧ bodyLike st2.requestBody = true := by
  by_cases hpres : isPresent (lookupKV args p.name) = true
  · simp only [processParam]
    rw [isPresent_transform, hpres]
    simp only [eq_self_iff_true, if_true]
    by_cases h1 : p.loc = "path"
    · rw [if_pos h1]; exact ⟨_, rfl, hb⟩
    · rw [if_neg h1]
      by_cases h2 : p.loc = "query"
      · rw [if_pos h2]; exact ⟨_, rfl, hb⟩
      · rw [if_neg h2]
        by_cases h3 : p.loc = "header"
        · rw [if_pos h3]; exact ⟨_, rfl, hb⟩
        · rw [if_neg h3]
          by_cases h4 : p.loc = "body"
          · rw [if_pos h4]
            cases hrb : st.requestBody with
            | none =>
                split
                all_goals first
                  | (refine ⟨_, rfl, ?_⟩; simp [bodyLike])
                  | (exfalso; simp_all [jsTruthy])
            | some v =>
                cases v with
                | vNull =>
                    split
                    all_goals first
                      | (refine ⟨_, rfl, ?_⟩; simp [bodyLike])
                      | (exfalso; simp_all [jsTruthy])
                | vObj fs =>
                    split
                    all_goals first
                      | (refine ⟨_, rfl, ?_⟩; simp [bodyLike])
                      | (exfalso; simp_all [jsTruthy])
                | vBool b => rw [hrb] at hb; simp [bodyLike] at hb
                | vNum n => rw [hrb] at hb; simp [bodyLike] at hb
                | vStr s => rw [hrb] at hb; simp [bodyLike] at hb
          · rw [if_neg h4]; exact ⟨st, rfl, hb⟩
  · have hre : p.required = false := by
      cases hr : p.required
      · rfl
      · exact absurd (hreq hr) hpres
    rw [Bool.not_eq_true] at hpres
    exact ⟨st, processParam_absent_optional args st p hpres hre, hb⟩

theorem processParams_error_first (args : List (String × Value)) (p : ParameterSpec)
    (l1 l2 : List ParameterSpec) :
    ∀ st : MapState, bodyLike st.requestBody = true →
    (∀ q ∈ l1, q.required = true → isPresent (lookupKV args q.name) = true) →
    p.required = true → isPresent (lookupKV args p.name) = false →
    processParams args (l1 ++ p :: l2) st =
      .error (.mcpThrow ⟨.invalidParams, "Missing required parameter: " ++ p.name⟩) := by
  induction l1 with
  | nil =>
      intro st hb _ hreq habs
      simp only [List.nil_append, processParams,
        processParam_absent_required args st p habs hreq]
  | cons q rest ih =>
      intro st hb hprev hreq habs
      obtain ⟨st2, hok, hb2⟩ :=
        processParam_ok_exists args st q hb (hprev q (List.mem_cons_self q rest))
      simp only [List.cons_append, processParams, hok]
      exact ih st2 hb2 (fun r hr => hprev r (List.mem_cons_of_mem q hr)) hreq habs

theorem bodyLike_of_noBody (o : Option Value) (h : isPresent o = false) :
    bodyLike o = true := by
  cases o with
  | none => rfl
  | some v => cases v <;> simp_all [isPresent, bodyLike]

theorem processParam_preserves_noBody (args : List (String × Value)) (st : MapState)
    (p : ParameterSpec) (st2 : MapState)
    (hnb : isPresent st.requestBody = false)
    (hbody : p.loc = "body" → isPresent (lookupKV args p.name) = false)
    (h : processParam args st p = .ok st2) :
    isPresent st2.requestBody = false := by
  by_cases hpres : isPresent (lookupKV args p.name) = true
  · simp only [processParam] at h
    rw [isPresent_transform, hpres] at h
    simp only [eq_self_iff_true, if_true] at h
    by_cases h1 : p.loc = "path"
    · rw [if_pos h1] at h
      cases h
      exact hnb
    · rw [if_neg h1] at h
      by_cases h2 : p.loc = "query"
      · rw [if_pos h2] at h
        cases h
        exact hnb
      · rw [if_neg h2] at h
        by_cases h3 : p.loc = "header"
        · rw [if_pos h3] at h
          cases h
          exact hnb
        · rw [if_neg h3] at h
          by_cases h4 : p.loc = "body"
          · exact absurd hpres (by simp [hbody h4])
          · rw [if_neg h4] at h
            cases h
            exact hnb
  · rw [Bool.not_eq_true] at hpres
    cases hr : p.required
    · rw [processParam_absent_optional args st p hpres hr] at h
      cases h
      exact hnb
    · rw [processParam_absent_required args st p hpres hr] at h
      cases h

theorem processParams_noBody_exists (args : List (String × Value))
    (l : List ParameterSpec) :
    ∀ st : MapState, isPresent st.requestBody = false →
    (∀ q ∈ l, q.required = true → isPresent (lookupKV args q.name) = true) →
    (∀ q ∈ l, q.loc = "body" → isPresent (lookupKV args q.name) = false) →
    ∃ st2, processParams args l st = .ok st2 ∧ isPresent st2.requestBody = false := by
  induction l with
  | nil => exact fun st hnb _ _ => ⟨st, rfl, hnb⟩
  | cons q rest ih =>
      intro st hnb hre hbl
      obtain ⟨st2, hok, _⟩ :=
        processParam_ok_exists args st q (bodyLike_of_noBody _ hnb)
          (hre q (List.mem_cons_self q rest))
      have hnb2 : isPresent st2.requestBody = false :=
        processParam_preserves_noBody args st q st2 hnb
          (hbl q (List.mem_cons_self q rest)) hok
      obtain ⟨st3, hok3, hnb3⟩ := ih st2 hnb2
        (fun r hr => hre r (List.mem_cons_of_mem q hr))
        (fun r hr => hbl r (List.mem_cons_of_mem q hr))
      exact ⟨st3, by simp only [processParams, hok, hok3], hnb3⟩

theorem processParam_preserves_header (args : List (String × Value)) (st : MapState)
    (p : ParameterSpec) (st2 : MapState) (k : String)
    (h : processParam args st p = .ok st2) (hk : p.name ≠ k)
    (hct : lookupKV st.headers k = none) :
    lookupKV st2.headers k = none := by
  by_cases hpres : isPresent (lookupKV args p.name) = true
  · simp only [processParam] at h
    rw [isPresent_transform, hpres] at h
    simp only [eq_self_iff_true, if_true] at h
    by_cases h1 : p.loc = "path"
    · rw [if_pos h1] at h
      cases h
      exact hct
    · rw [if_neg h1] at h
      by_cases h2 : p.loc = "query"
      · rw [if_pos h2] at h
        cases h
        exact hct
      · rw [if_neg h2] at h
        by_cases h3 : p.loc = "header"
        · rw [if_pos h3] at h
          cases h
          exact (lookupKV_setKV_ne st.headers p.name k _ hk).trans hct
        · rw [if_neg h3] at h
          by_cases h4 : p.loc = "body"
          · rw [if_pos h4] at h
            split at h
            · cases h
              exact hct
            · cases h
          · rw [if_neg h4] at h
            cases h
            exact hct
  · rw [Bool.not_eq_true] at hpres
    cases hr : p.required
    · rw [processParam_absent_optional args st p hpres hr] at h
      cases h
      exact hct
    · rw [processParam_absent_required args st p hpres hr] at h
      cases h

theorem processParams_preserves_header (args : List (String × Value))
    (l : List ParameterSpec) (k : String) :
    ∀ st st2 : MapState, processParams args l st = .ok st2 →
    (∀ q ∈ l, q.name ≠ k) → lookupKV st.headers k = none →
    lookupKV st2.headers k = none := by
  induction l with
  | nil =>
      intro st st2 h _ hct
      cases h
      exact hct
  | cons q rest ih =>
      intro st st2 h hk hct
      cases hq : processParam args st q with
      | error e => rw [processParams, hq] at h; cases h
      | ok stm =>
          rw [processParams, hq] at h
          exact ih stm st2 h (fun r hr => hk r (List.mem_cons_of_mem q hr))
            (processParam_preserves_header args st q stm k hq
              (hk q (List.mem_cons_self q rest)) hct)

theorem hexVal_hexDigit (n : Nat) (h : n < 16) : hexVal (hexDigit n) = some n := by
  interval_cases n <;> decide

theorem unreservedECU_ne_pct (c : Char) (h : isUnreservedECU c = true) : c ≠ '%' := by
  intro he
  subst he
  revert h
  decide

theorem utf8Bytes_ascii (c : Char) (h : c.toNat < 128) : utf8Bytes c = [c.toNat] := by
  simp [utf8Bytes, h]

theorem decode_encode_ascii (l : List Char) (h : ∀ c ∈ l, c.toNat < 128) :
    decodeURIComponentChars (encodeURIComponentChars l) = some l := by
  induction l with
  | nil => rfl
  | cons c rest ih =>
      have hc : c.toNat < 128 := h c (List.mem_cons_self c rest)
      have hrest := ih (fun x hx => h x (List.mem_cons_of_mem c hx))
      by_cases hu : isUnreservedECU c = true
      · simp only [encodeURIComponentChars, hu, if_true, List.singleton_append]
        simp [decodeURIComponentChars, unreservedECU_ne_pct c hu, hrest]
      · simp only [encodeURIComponentChars, hu, if_false]
        rw [utf8Bytes_ascii c hc]
        simp only [List.foldr, pctEncodeByte, List.nil_append, List.append_nil,
          List.cons_append]
        have hdiv : c.toNat / 16 < 16 := by omega
        have hmod : c.toNat % 16 < 16 := Nat.mod_lt _ (by norm_num)
        simp [decodeURIComponentChars, decodePctTail, hexVal_hexDigit _ hdiv,
          hexVal_hexDigit _ hmod, hrest, Nat.div_add_mod, Char.ofNat_toNat]

theorem reserved_unreserved_subdelim (c : Char) (hu : isUnreservedECU c = true)
    (hr : reservedRFC3986 c = true) :
    c ∈ ['!', '*', Char.ofNat 39, '(', ')'] := by
  simp only [reservedRFC3986, List.contains_eq_any_beq, List.any_cons, List.any_nil,
    Bool.or_eq_true, beq_iff_eq, Bool.false_eq_true, or_false] at hr
  rcases hr with rfl | rfl | rfl | rfl | rfl | rfl | rfl | rfl | rfl | rfl | rfl | rfl |
    rfl | rfl | rfl | rfl | rfl | rfl <;> revert hu <;> decide

theorem hexDigit_not_reserved (n : Nat) (h : n < 16) :
    reservedRFC3986 (hexDigit n) = false := by
  interval_cases n <;> decide

theorem encode_reserved_only_subdelims (l : List Char) (h : ∀ c ∈ l, c.toNat < 128) :
    ∀ c2 ∈ encodeURIComponentChars l, reservedRFC3986 c2 = true →
      c2 ∈ ['!', '*', Char.ofNat 39, '(', ')'] := by
  induction l with
  | nil => simp [encodeURIComponentChars]
  | cons c rest ih =>
      intro c2 hc2 hr
      have hc : c.toNat < 128 := h c (List.mem_cons_self c rest)
      simp only [encodeURIComponentChars] at hc2
      rw [List.mem_append] at hc2
      cases hc2 with
      | inr hmem => exact ih (fun x hx => h x (List.mem_cons_of_mem c hx)) c2 hmem hr
      | inl hmem =>
          by_cases hu : isUnreservedECU c = true
          · rw [if_pos hu] at hmem
            rw [List.mem_singleton] at hmem
            subst hmem
            exact reserved_unreserved_subdelim c2 hu hr
          · rw [if_neg hu] at hmem
            rw [utf8Bytes_ascii c hc] at hmem
            simp only [List.foldr, pctEncodeByte, List.append_nil, List.mem_cons,
              List.not_mem_nil, or_false] at hmem
            have hdiv : c.toNat / 16 < 16 := by omega
            have hmod : c.toNat % 16 < 16 := Nat.mod_lt _ (by norm_num)
            rcases hmem with rfl | rfl | rfl
            · exact absurd hr (by decide)
            · rw [hexDigit_not_reserved _ hdiv] at hr
              cases hr
            · rw [hexDigit_not_reserved _ hmod] at hr
              cases hr

/-- A concrete catalog entry with one required query parameter, used for the
concrete evaluations below. -/
def demoTool : ToolDescriptor :=
  { name := "getBacklinks", inputSchema := .vObj [("type", .vStr "object")],
    method := some "GET", path := some "/site-explorer/all-backlinks",
    parameters := [⟨"target", "query", true⟩], requestBodyInfo := none }

/-- C1: the claim says an argument-validation failure (missing required
parameter or missing required body) is surfaced as a protocol-level
InvalidParams error and never as an envelope with isError = true.  The code
does the opposite: the validation throw happens inside the try-block, the
catch block converts it (as a plain `Error`) into an InternalError, and the
handler returns a successful protocol response whose envelope has
isError = true.  This theorem evaluates the handler at the failing input:
tool `getBacklinks` called with no arguments. -/
theorem claim_C1_validation_surfaces_as_envelope :
    handleCallTool [demoTool] "key" "getBacklinks" [] (.error .nonError) =
      ⟨.ok { content := [⟨"text", "Request failed: Missing required parameter: target"⟩],
             isError := true,
             error := some ⟨.internalError,
               "Request failed: Missing required parameter: target"⟩ },
       false⟩ := rfl

/-- C2 counterexample: a call with a body (`args.requestBody` is an object)
against a descriptor with no requestBody metadata.  The claim says the
outbound request still carries the body with Content-Type application/json;
in fact the mapped request carries no data and no Content-Type header. -/
theorem claim_C2_counterexample :
    (mapArguments [] none "POST" "/keywords" "key"
        [("requestBody", .vObj [("a", .vNum 1)])]).map
      (fun r => (r.data, lookupKV r.headers "Content-Type")) = .ok (none, none) := rfl

/-- C2 amended: when the descriptor declares no requestBody metadata the
outbound request never carries a body, and (provided no parameter is itself
named Content-Type) no Content-Type header is set, whatever body value the
arguments supplied. -/
theorem claim_C2_body_dropped (params : List ParameterSpec)
    (method path apiKey : String) (args : List (String × Value)) (r : OutboundRequest)
    (hn : ∀ q ∈ params, q.name ≠ "Content-Type")
    (h : mapArguments params none method path apiKey args = .ok r) :
    r.data = none ∧ lookupKV r.headers "Content-Type" = none := by
  cases hps : processParams args params (initState path apiKey args) with
  | error e =>
      simp only [mapArguments, hps] at h
      cases h
  | ok st =>
      simp only [mapArguments, hps,
        show finalizeBody none st = .ok (none, st.headers) from rfl] at h
      cases h
      refine ⟨rfl, ?_⟩
      exact processParams_preserves_header args params "Content-Type"
        (initState path apiKey args) st hps hn rfl

/-- The request the Argument Mapper builds in the C2 witness scenario. -/
def c2WitnessRequest : OutboundRequest :=
  { method := "POST", url := "/keywords", queryParams := [],
    headers := [("Accept", "application/json"), ("User-Agent", "ahrefs-mcp-server"),
                ("Authorization", "Bearer key")],
    data := none }

/-- C2 amended, witness instance. -/
theorem claim_C2_body_dropped_witness :
    c2WitnessRequest.data = none ∧
      lookupKV c2WitnessRequest.headers "Content-Type" = none :=
  claim_C2_body_dropped [] "POST" "/keywords" "key"
    [("requestBody", .vObj [("a", .vNum 1)])] c2WitnessRequest (by simp) rfl

/-- C3: for every descriptor and argument map omitting some required
parameter (the first such parameter `p` in catalog order, with the arguments
supplying a body of a JSON-compatible shape), the argument mapping fails with
the MissingParameter validation throw naming exactly `p`, short-circuiting at
`p` (the result does not depend on the parameters after `p`), and the handler
never reaches the upstream axios call. -/
theorem claim_C3_missing_required_param
    (args : List (String × Value)) (l1 l2 : List ParameterSpec) (p : ParameterSpec)
    (rbInfo : Option RequestBodyInfo) (method path apiKey toolName : String)
    (tools : List ToolDescriptor) (tool : ToolDescriptor)
    (upstream : Except ThrownError SuccessResponse)
    (hb : bodyLike (lookupKV args "requestBody") = true)
    (hprev : ∀ q ∈ l1, q.required = true → isPresent (lookupKV args q.name) = true)
    (hreq : p.required = true)
    (habs : isPresent (lookupKV args p.name) = false) :
    mapArguments (l1 ++ p :: l2) rbInfo method path apiKey args =
      .error (.mcpThrow ⟨.invalidParams, "Missing required parameter: " ++ p.name⟩) ∧
    (toolName ≠ "doc" →
      tools.find? (fun t => t.name == toolName) = some tool →
      tool.parameters = l1 ++ p :: l2 →
      tool.requestBodyInfo = rbInfo →
      tool.method = some method → tool.path = some path →
      method ≠ "" → path ≠ "" →
      (handleCallTool tools apiKey toolName args upstream).upstreamCalled = false) := by
  have hloop := processParams_error_first args p l1 l2 (initState path apiKey args)
    hb hprev hreq habs
  have hmap : mapArguments (l1 ++ p :: l2) rbInfo method path apiKey args =
      .error (.mcpThrow ⟨.invalidParams, "Missing required parameter: " ++ p.name⟩) := by
    simp only [mapArguments, hloop]
  refine ⟨hmap, ?_⟩
  intro hdoc hfind hparams hrb hm hp hmne hpne
  simp only [handleCallTool, if_neg hdoc, hfind, hm, hp, strOptTruthy]
  simp only [hparams, hrb, Option.getD_some]
  rw [if_pos (by simp [hmne, hpne])]
  simp only [hmap]

/-- A catalog entry with an optional parameter before a required one, for the
C3 witness. -/
def c3Tool : ToolDescriptor :=
  { name := "getRefdomains", inputSchema := .vObj [], method := some "GET",
    path := some "/site-explorer/refdomains",
    parameters := [⟨"limit", "query", false⟩, ⟨"target", "query", true⟩],
    requestBodyInfo := none }

/-- C3 witness: calling `getRefdomains` with only `limit` fails naming
`target` and the upstream call is never made. -/
theorem claim_C3_missing_required_param_witness :
    mapArguments [⟨"limit", "query", false⟩, ⟨"target", "query", true⟩] none "GET"
        "/site-explorer/refdomains" "k" [("limit", .vNum 5)] =
      .error (.mcpThrow ⟨.invalidParams, "Missing required parameter: " ++ "target"⟩) ∧
    (handleCallTool [c3Tool] "k" "getRefdomains" [("limit", .vNum 5)]
        (.ok ⟨200, none, .vNull⟩)).upstreamCalled = false := by
  have h := claim_C3_missing_required_param [("limit", .vNum 5)]
    [⟨"limit", "query", false⟩] [] ⟨"target", "query", true⟩ none "GET"
    "/site-explorer/refdomains" "k" "getRefdomains" [c3Tool] c3Tool
    (.ok ⟨200, none, .vNull⟩) rfl (by decide) rfl rfl
  exact ⟨h.1, h.2 (by decide) rfl rfl rfl rfl rfl (by decide) (by decide)⟩

/-- C4: for a descriptor whose requestBody metadata is required, if the
arguments supply no body (`args.requestBody` absent or null and every
body-located parameter absent) and the parameter loop succeeds, the mapping
fails with the MissingBody validation throw. -/
theorem claim_C4_missing_required_body (params : List ParameterSpec)
    (info : RequestBodyInfo) (method path apiKey : String)
    (args : List (String × Value))
    (hreq : info.required = true)
    (hnb : isPresent (lookupKV args "requestBody") = false)
    (hre : ∀ q ∈ params, q.required = true → isPresent (lookupKV args q.name) = true)
    (hbl : ∀ q ∈ params, q.loc = "body" → isPresent (lookupKV args q.name) = false) :
    mapArguments params (some info) method path apiKey args =
      .error (.mcpThrow ⟨.invalidParams, "Missing required requestBody"⟩) := by
  obtain ⟨st2, hok, hnb2⟩ :=
    processParams_noBody_exists args params (initState path apiKey args) hnb hre hbl
  have hf : finalizeBody (some info) st2 =
      .error (.mcpThrow ⟨.invalidParams, "Missing required requestBody"⟩) := by
    simp [finalizeBody, hnb2, hreq]
  simp only [mapArguments, hok, hf]

/-- C4 witness: a required-body descriptor called with only its query
parameter fails with the MissingBody throw. -/
theorem claim_C4_missing_required_body_witness :
    mapArguments [⟨"select", "query", true⟩] (some ⟨true, some "application/json"⟩)
        "POST" "/batch" "k" [("select", .vStr "x")] =
      .error (.mcpThrow ⟨.invalidParams, "Missing required requestBody"⟩) :=
  claim_C4_missing_required_body [⟨"select", "query", true⟩]
    ⟨true, some "application/json"⟩ "POST" "/batch" "k" [("select", .vStr "x")]
    rfl rfl (by decide) (by decide)

/-- The field lookup used by the spec-side description of message extraction:
the field's value when it is defined and truthy, else nothing. -/
def truthyField (d : Value) (k : String) : Option Value :=
  match getField d k with
  | some v => if jsTruthy v then some v else none
  | none => none

/-- Modelled from the spec (section 4.3 failure path): extract a message by
checking, in order, an `error` field, a `message` field, a `detail` field,
falling back to the transport message. -/
def specExtractMessage (d : Value) (fallback : String) : String :=
  match truthyField d "error" with
  | some v => jsToString v
  | none =>
      match truthyField d "message" with
      | some v => jsToString v
      | none =>
          match truthyField d "detail" with
          | some v => jsToString v
          | none => fallback

theorem apiMessageOf_eq_spec (d : Value) (fb : String) :
    apiMessageOf d fb = specExtractMessage d fb := by
  unfold apiMessageOf specExtractMessage truthyField jsOrV
  cases getField d "error" <;> cases getField d "message" <;> cases getField d "detail" <;>
    dsimp only <;>
    first
      | rfl
      | (split_ifs <;> simp_all)

/-- C5: the error translator is total and maps every failure as specified:
for an HTTP failure it extracts the message by checking, in order, `error`,
`message`, `detail`, then the transport message, and maps 400 to
InvalidParams, 404 to MethodNotFound, 408 to RequestTimeout, 500/502/503/504
to InternalError with the status in the message, any other status to a
generic InternalError with the status; an axios error without a response, a
thrown `Error`, and a non-`Error` value all become InternalError. -/
theorem claim_C5_error_translation_total :
    (∀ (status : Nat) (d : Value) (msg : String),
      mapApiErrorToMcpError (.axiosError (some ⟨status, d⟩) msg) =
        if status = 400 then
          ⟨.invalidParams, "API Bad Request: " ++ specExtractMessage d msg⟩
        else if status = 404 then
          ⟨.methodNotFound, "API Not Found: " ++ specExtractMessage d msg⟩
        else if status = 408 then
          ⟨.requestTimeout, "API Request Timeout: " ++ specExtractMessage d msg⟩
        else if status = 500 ∨ status = 502 ∨ status = 503 ∨ status = 504 then
          ⟨.internalError,
            "API Server Error (" ++ toString status ++ "): " ++ specExtractMessage d msg⟩
        else
          ⟨.internalError,
            "API Request Failed (" ++ toString status ++ "): " ++ specExtractMessage d msg⟩) ∧
    (∀ msg : String, mapApiErrorToMcpError (.axiosError none msg) =
      ⟨.internalError, "API Request Failed (undefined): " ++ msg⟩) ∧
    (∀ e : McpError, mapApiErrorToMcpError (.mcpThrow e) =
      ⟨.internalError, "Request failed: " ++ e.message⟩) ∧
    (∀ msg : String, mapApiErrorToMcpError (.otherError msg) =
      ⟨.internalError, "Request failed: " ++ msg⟩) ∧
    mapApiErrorToMcpError .nonError =
      ⟨.internalError, "An unknown internal error occurred"⟩ := by
  refine ⟨?_, fun msg => rfl, fun e => rfl, fun msg => rfl, rfl⟩
  intro status d msg
  simp only [mapApiErrorToMcpError, apiMessageOf_eq_spec]

/-- C6: whenever the dispatch reaches the upstream call and axios resolves
(which its validateStatus restricts to statuses in [200,300)), the handler
returns an envelope with exactly one text content item and isError = false;
the text is the pretty-printed JSON rendering of the body when the
content-type mentions application/json and the body is an object (or null,
as typeof does), and the plain string rendering otherwise. -/
theorem claim_C6_success_envelope
    (tools : List ToolDescriptor) (apiKey toolName : String)
    (args : List (String × Value)) (tool : ToolDescriptor) (r : OutboundRequest)
    (resp : SuccessResponse)
    (hdoc : toolName ≠ "doc")
    (hfind : tools.find? (fun t => t.name == toolName) = some tool)
    (hm : strOptTruthy tool.method = true) (hp : strOptTruthy tool.path = true)
    (hmap : mapArguments tool.parameters tool.requestBodyInfo (tool.method.getD "")
      (tool.path.getD "") apiKey args = .ok r)
    (_hst1 : 200 ≤ resp.status) (_hst2 : resp.status < 300) :
    handleCallTool tools apiKey toolName args (.ok resp) =
      ⟨.ok ({ content := [⟨"text",
                (if (match resp.contentType with
                    | some ct => (ct ≠ "") && strIncludes ct "application/json"
                    | none => false) && jsTypeofIsObject resp.data then
                  jsonStringifyPretty resp.data
                else jsToString resp.data)⟩],
              isError := false, error := none }), true⟩ := by
  simp only [handleCallTool, if_neg hdoc, hfind]
  rw [if_pos (by simp [hm, hp])]
  simp only [hmap, formatSuccess]

/-- A catalog entry with no parameters, for the C6 witness. -/
def c6Tool : ToolDescriptor :=
  { name := "getMetrics", inputSchema := .vObj [], method := some "GET",
    path := some "/metrics", parameters := [], requestBodyInfo := none }

/-- The request the Argument Mapper builds in the C6 witness scenario. -/
def c6WitnessRequest : OutboundRequest :=
  { method := "GET", url := "/metrics", queryParams := [],
    headers := [("Accept", "application/json"), ("User-Agent", "ahrefs-mcp-server"),
                ("Authorization", "Bearer k")],
    data := none }

/-- C6 witness: a 200 application/json response with body the object
`a: 1` yields a single-item envelope with the pretty-printed body and
isError = false. -/
theorem claim_C6_success_envelope_witness :
    handleCallTool [c6Tool] "k" "getMetrics" []
        (.ok ⟨200, some "application/json", .vObj [("a", .vNum 1)]⟩) =
      ⟨.ok ({ content := [⟨"text", jsonStringifyPretty (.vObj [("a", .vNum 1)])⟩],
              isError := false, error := none }), true⟩ := by
  have h := claim_C6_success_envelope [c6Tool] "k" "getMetrics" [] c6Tool
    c6WitnessRequest ⟨200, some "application/json", .vObj [("a", .vNum 1)]⟩
    (by decide) rfl rfl rfl rfl (by decide) (by decide)
  rw [h]
  rfl

/-- C7: a call-tool request named `doc` strips the `tool` argument to its
last underscore-separated segment, looks that name up in the catalog, and
returns the stored input schema pretty-printed as one text item without any
upstream call; when the lookup fails the call is rejected with a
protocol-level MethodNotFound error, again without any upstream call. -/
theorem claim_C7_doc_tool
    (tools : List ToolDescriptor) (apiKey : String) (args : List (String × Value))
    (upstream : Except ThrownError SuccessResponse) (t : ToolDescriptor) :
    (tools.find? (fun x => x.name == lastSegment (jsToStringU (lookupKV args "tool"))) =
        some t →
      handleCallTool tools apiKey "doc" args upstream =
        ⟨.ok ({ content := [⟨"text", jsonStringifyPretty t.inputSchema⟩],
                isError := false, error := none }), false⟩) ∧
    (tools.find? (fun x => x.name == lastSegment (jsToStringU (lookupKV args "tool"))) =
        none →
      handleCallTool tools apiKey "doc" args upstream =
        ⟨.error ⟨.methodNotFound,
           "Tool \x27" ++ lastSegment (jsToStringU (lookupKV args "tool")) ++
             "\x27 not found."⟩,
         false⟩) := by
  constructor
  · intro h
    simp only [handleCallTool, h, eq_self_iff_true, if_true]
  · intro h
    simp only [handleCallTool, h, eq_self_iff_true, if_true]

/-- C7 witness: `doc` on `namespace_getBacklinks` returns the stored schema
of `getBacklinks` pretty-printed; with an empty catalog the same call is
rejected with MethodNotFound. -/
theorem claim_C7_doc_tool_witness :
    handleCallTool [demoTool] "k" "doc" [("tool", .vStr "namespace_getBacklinks")]
        (.error .nonError) =
      ⟨.ok ({ content := [⟨"text", jsonStringifyPretty demoTool.inputSchema⟩],
              isError := false, error := none }), false⟩ ∧
    handleCallTool [] "k" "doc" [("tool", .vStr "namespace_getBacklinks")]
        (.error .nonError) =
      ⟨.error ⟨.methodNotFound, "Tool \x27getBacklinks\x27 not found."⟩, false⟩ := by
  refine ⟨(claim_C7_doc_tool [demoTool] "k" [("tool", .vStr "namespace_getBacklinks")]
    (.error .nonError) demoTool).1 rfl, ?_⟩
  have h := (claim_C7_doc_tool [] "k" [("tool", .vStr "namespace_getBacklinks")]
    (.error .nonError) demoTool).2 rfl
  rw [h]
  rfl

/-- C8: a supplied (non-null) value for a parameter named us_state, country
or country_code is coerced to a string and lower-cased before being routed,
whatever the parameter location: the path placeholder gets the encoded
lower-cased string, the query and body entries hold the lower-cased string
value, the header holds the lower-cased string, and in particular the string
US maps to us. -/
theorem claim_C8_lowercased_params
    (args : List (String × Value)) (st : MapState) (p : ParameterSpec) (v : Value)
    (hname : p.name = "us_state" ∨ p.name = "country" ∨ p.name = "country_code")
    (hv : lookupKV args p.name = some v) (hnn : v ≠ .vNull) :
    (p.loc = "path" →
      processParam args st p = .ok { st with targetPath :=
        (replaceFirst st.targetPath ("\x7b" ++ p.name ++ "\x7d")
          (encodeURIComponent (jsToLowerCase (jsToString v)))) }) ∧
    (p.loc = "query" →
      processParam args st p = .ok { st with queryParams :=
        (setKV st.queryParams p.name (.vStr (jsToLowerCase (jsToString v)))) }) ∧
    (p.loc = "header" →
      processParam args st p = .ok { st with headers :=
        (setKV st.headers p.name (jsToLowerCase (jsToString v))) }) ∧
    (∀ fs, p.loc = "body" → st.requestBody = some (.vObj fs) →
      processParam args st p = .ok { st with requestBody :=
        (some (.vObj (setKV fs p.name (.vStr (jsToLowerCase (jsToString v)))))) }) ∧
    jsToLowerCase (jsToString (Value.vStr "US")) = "us" := by
  have hpres : isPresent (some v) = true := by
    cases v <;> simp_all [isPresent]
  have hcont : lowercasedNames.contains p.name = true := by
    rcases hname with h | h | h <;> rw [h] <;> rfl
  have hmem : p.name ∈ lowercasedNames := by
    rcases hname with h | h | h <;> rw [h] <;> decide
  refine ⟨?_, ?_, ?_, ?_, by decide⟩
  · intro hloc
    simp [processParam, hv, hpres, hcont, hmem, hloc, isPresent, jsToStringU, jsToString]
  · intro hloc
    simp [processParam, hv, hpres, hcont, hmem, hloc, isPresent, jsToStringU, jsToString]
  · intro hloc
    simp [processParam, hv, hpres, hcont, hmem, hloc, isPresent, jsToStringU, jsToString]
  · intro fs hloc hrb
    simp [processParam, hv, hpres, hcont, hmem, hloc, hrb, isPresent, jsToStringU, jsToString,
      jsTruthy]

/-- C8 witness: supplying country = US to a query parameter stores the
lower-cased value us. -/
theorem claim_C8_lowercased_params_witness :
    processParam [("country", .vStr "US")] (initState "/x" "k" [])
        ⟨"country", "query", true⟩ =
      .ok { initState "/x" "k" [] with queryParams := [("country", Value.vStr "us")] } ∧
    jsToLowerCase (jsToString (Value.vStr "US")) = "us" := by
  have h := claim_C8_lowercased_params [("country", .vStr "US")] (initState "/x" "k" [])
    ⟨"country", "query", true⟩ (.vStr "US") (Or.inr (Or.inl rfl)) rfl
    (fun hh => Value.noConfusion hh)
  refine ⟨?_, h.2.2.2.2⟩
  rw [h.2.1 rfl]
  rfl

/-- C9 counterexample: the value `!` supplied for a path parameter appears
un-encoded in the substituted path, and `!` is an RFC 3986 reserved character
(a sub-delim), because encodeURIComponent exempts `! * ' ( )`.  This refutes
the clause that the substituted path never contains an un-encoded reserved
character from the supplied value. -/
theorem claim_C9_counterexample :
    (mapArguments [⟨"p", "path", true⟩] none "GET" "/kw/\x7bp\x7d" "k"
        [("p", .vStr "!")]).map (fun r => r.url) = .ok "/kw/!" ∧
    reservedRFC3986 '!' = true ∧ '!' ∈ ("!" : String).data := by
  refine ⟨rfl, rfl, ?_⟩
  decide

/-- C9 amended: the path placeholder is replaced by the encodeURIComponent
encoding of the string form of the value; for ASCII values the encoding
round-trips (decode after encode is the identity), and the only reserved
characters that can appear un-encoded in the substituted portion are the five
sub-delims `! * ' ( )` that encodeURIComponent leaves unescaped. -/
theorem claim_C9_path_encoding_roundtrip
    (nm tmpl v method apiKey : String) (req : Bool)
    (h1 : ∀ c ∈ v.data, c.toNat < 128)
    (h2 : nm ≠ "us_state") (h3 : nm ≠ "country") (h4 : nm ≠ "country_code") :
    (mapArguments [⟨nm, "path", req⟩] none method tmpl apiKey
        [(nm, .vStr v)]).map (fun r => r.url) =
      .ok (replaceFirst tmpl ("\x7b" ++ nm ++ "\x7d") (encodeURIComponent v)) ∧
    decodeURIComponentChars (encodeURIComponent v).data = some v.data ∧
    (∀ c ∈ (encodeURIComponent v).data, reservedRFC3986 c = true →
      c ∈ ['!', '*', Char.ofNat 39, '(', ')']) := by
  refine ⟨?_, decode_encode_ascii v.data h1, ?_⟩
  · have hnc : lowercasedNames.contains nm = false := by
      simp [lowercasedNames, h2, h3, h4]
    have hv0 : lookupKV [(nm, Value.vStr v)] nm = some (.vStr v) := by simp [lookupKV]
    have hnmem : nm ∉ lowercasedNames := by simp [lowercasedNames, h2, h3, h4]
    have hpp : processParam [(nm, .vStr v)] (initState tmpl apiKey [(nm, .vStr v)])
        ⟨nm, "path", req⟩ =
        .ok { initState tmpl apiKey [(nm, .vStr v)] with targetPath :=
          (replaceFirst tmpl ("\x7b" ++ nm ++ "\x7d") (encodeURIComponent v)) } := by
      simp [processParam, hv0, hnc, hnmem, isPresent, jsToString, initState]
    simp only [mapArguments, processParams, hpp,
      show ∀ st : MapState, finalizeBody none st = .ok (none, st.headers)
        from fun st => rfl]
    rfl
  · intro c hc hr
    exact encode_reserved_only_subdelims v.data h1 c hc hr

/-- C9 amended, witness instance at the ASCII value `a b`. -/
theorem claim_C9_path_encoding_roundtrip_witness :
    (mapArguments [⟨"p", "path", true⟩] none "GET" "/kw/\x7bp\x7d" "k"
        [("p", .vStr "a b")]).map (fun r => r.url) =
      .ok (replaceFirst "/kw/\x7bp\x7d" ("\x7b" ++ "p" ++ "\x7d")
        (encodeURIComponent "a b")) ∧
    decodeURIComponentChars (encodeURIComponent "a b").data =
      some ("a b" : String).data ∧
    (∀ c ∈ (encodeURIComponent "a b").data, reservedRFC3986 c = true →
      c ∈ ['!', '*', Char.ofNat 39, '(', ')']) :=
  claim_C9_path_encoding_roundtrip "p" "/kw/\x7bp\x7d" "a b" "GET" "k" true
    (by decide) (by decide) (by decide) (by decide)

/-- C10: a parameter whose supplied value is null is treated exactly like an
absent one: the loop step computes the same result as for any argument map
not containing the parameter at all; in particular a required parameter fails
with MissingParameter naming it and an optional one leaves the whole request
state (path, query, headers, body) untouched. -/
theorem claim_C10_null_behaves_as_absent
    (args args2 : List (String × Value)) (st : MapState) (p : ParameterSpec)
    (hnull : lookupKV args p.name = some .vNull)
    (habs2 : lookupKV args2 p.name = none) :
    processParam args st p = processParam args2 st p ∧
    (p.required = true →
      processParam args st p =
        .error (.mcpThrow ⟨.invalidParams, "Missing required parameter: " ++ p.name⟩)) ∧
    (p.required = false → processParam args st p = .ok st) := by
  have h1 : isPresent (lookupKV args p.name) = false := by rw [hnull]; rfl
  refine ⟨?_, fun hr => processParam_absent_required args st p h1 hr,
    fun hr => processParam_absent_optional args st p h1 hr⟩
  simp [processParam, hnull, habs2, isPresent]

/-- C10 witness: null for a required query parameter behaves as if absent and
triggers the MissingParameter throw. -/
theorem claim_C10_null_behaves_as_absent_witness :
    processParam [("mode", Value.vNull)] (initState "/x" "k" [])
        ⟨"mode", "query", true⟩ =
      processParam [] (initState "/x" "k" []) ⟨"mode", "query", true⟩ ∧
    processParam [("mode", Value.vNull)] (initState "/x" "k" [])
        ⟨"mode", "query", true⟩ =
      .error (.mcpThrow ⟨.invalidParams, "Missing required parameter: " ++ "mode"⟩) := by
  have h := claim_C10_null_behaves_as_absent [("mode", Value.vNull)] []
    (initState "/x" "k" []) ⟨"mode", "query", true⟩ rfl rfl
  exact ⟨h.1, h.2.1 rfl⟩
